import Mathlib

/-!
# Verification of the VCN teardown workflow of `oci_manager.py`

A shallow embedding of the `delete_vcn_wizard` workflow (the network
teardown orchestrator).  The provider is modelled as an immutable snapshot
of the resources visible to the workflow; every API call the workflow
issues is recorded in a trace.  Whether a delete/update call raises a
provider-side error is decided by an oracle `fails : ApiCall → Bool`
(reads are modelled as always succeeding).  The asynchronous draining of
subnets during the polling barrier is modelled by an oracle
`drain : Nat → Nat` giving the remaining-subnet count at each poll.
-/

namespace OciManager

/-- A VNIC attachment of an instance (`list_vnic_attachments` item). -/
structure VnicAttachment where
  lifecycle_state : String
  vnic_id : String
deriving DecidableEq, Repr

/-- A VNIC (`get_vnic` result); only the owning subnet id is relevant. -/
structure Vnic where
  subnet_id : String
deriving DecidableEq, Repr

/-- A subnet (`get_subnet` / `list_subnets` result). -/
structure Subnet where
  id : String
  display_name : String
  vcn_id : String
deriving DecidableEq, Repr

/-- A compute instance (`list_instances` item). -/
structure Instance where
  id : String
  display_name : String
deriving DecidableEq, Repr

/-- A route rule: destination CIDR and target network entity. -/
structure RouteRule where
  destination : String
  network_entity_id : String
deriving DecidableEq, Repr

/-- A route table (`list_route_tables` item). -/
structure RouteTable where
  id : String
  display_name : String
  route_rules : List RouteRule
deriving DecidableEq, Repr

/-- A security list (`list_security_lists` item). -/
structure SecurityList where
  id : String
  display_name : String
deriving DecidableEq, Repr

/-- A gateway or network security group: id and display name. -/
structure Gateway where
  id : String
  display_name : String
deriving DecidableEq, Repr

/-- A VCN (`list_vcns` item). -/
structure Vcn where
  id : String
  display_name : String
  cidr_block : String
deriving DecidableEq, Repr

/-- One API call issued by the workflow, as recorded in the trace.
`instanceAction` (start/stop/reset) is issued elsewhere in the program
(`manage_instances`) and is included so that its absence from the teardown
trace is expressible. -/
inductive ApiCall where
  | listVcns
  | listInstances
  | listVnicAttachments (instanceId : String)
  | getVnic (vnicId : String)
  | getSubnet (subnetId : String)
  | listRouteTables (vcnId : String)
  | updateRouteTable (rtId : String) (newRules : List RouteRule)
  | listSubnets (vcnId : String)
  | deleteSubnet (subnetId : String)
  | listInternetGateways (vcnId : String)
  | deleteInternetGateway (igId : String)
  | listNatGateways (vcnId : String)
  | deleteNatGateway (natId : String)
  | listServiceGateways (vcnId : String)
  | deleteServiceGateway (sgId : String)
  | listNetworkSecurityGroups (vcnId : String)
  | deleteNetworkSecurityGroup (nsgId : String)
  | deleteRouteTable (rtId : String)
  | listSecurityLists (vcnId : String)
  | deleteSecurityList (slId : String)
  | deleteVcn (vcnId : String)
  | instanceAction (instanceId : String) (action : String)
  | sleep (seconds : Nat)
deriving DecidableEq, Repr

/-- Snapshot of the provider state visible to one teardown run.  The
`…Of` fields are the per-VCN listings (the code always lists with
`compartment_id` fixed to the tenancy and, where applicable, `vcn_id`);
`vnicById` and `subnetById` are the point lookups used during impact
discovery. -/
structure Provider where
  instances : List Instance
  vnicAttachmentsOf : String → List VnicAttachment
  vnicById : String → Vnic
  subnetById : String → Subnet
  routeTablesOf : String → List RouteTable
  subnetsOf : String → List Subnet
  internetGatewaysOf : String → List Gateway
  natGatewaysOf : String → List Gateway
  serviceGatewaysOf : String → List Gateway
  nsgsOf : String → List Gateway
  securityListsOf : String → List SecurityList

/-- Overall outcome of one `delete_vcn_wizard` run. -/
inductive WizardOutcome where
  | notConfirmed
  | aborted
  | success
  | terminalFailure
deriving DecidableEq, Repr

/-- Inner loop of impact discovery: scan one instance's VNIC attachments
(in order); for each attachment in state ATTACHED/ATTACHING resolve the
VNIC and its subnet; stop at the first subnet belonging to the target
VCN.  Returns whether a match was found together with the lookup calls
issued. -/
def scanAttachments (p : Provider) (vcnId : String) :
    List VnicAttachment → Bool × List ApiCall
  | [] => (false, [])
  | att :: rest =>
    if att.lifecycle_state = "ATTACHED" ∨ att.lifecycle_state = "ATTACHING" then
      let vnic := p.vnicById att.vnic_id
      let subnet := p.subnetById vnic.subnet_id
      if subnet.vcn_id = vcnId then
        (true, [ApiCall.getVnic att.vnic_id, ApiCall.getSubnet vnic.subnet_id])
      else
        let r := scanAttachments p vcnId rest
        (r.1, ApiCall.getVnic att.vnic_id :: ApiCall.getSubnet vnic.subnet_id :: r.2)
    else
      scanAttachments p vcnId rest

/-- Outer loop of impact discovery over the instance list: the instance is
appended (once, thanks to the inner loop's early stop) exactly when some
attachment links it to the target VCN. -/
def discoverInstances (p : Provider) (vcnId : String) :
    List Instance → List Instance × List ApiCall
  | [] => ([], [])
  | inst :: rest =>
    let s := scanAttachments p vcnId (p.vnicAttachmentsOf inst.id)
    let r := discoverInstances p vcnId rest
    ((if s.1 then inst :: r.1 else r.1),
     ApiCall.listVnicAttachments inst.id :: (s.2 ++ r.2))

/-- The in-use instance list computed by phase 1 (`instances_in_vcn`). -/
def instancesInVcn (p : Provider) (vcnId : String) : List Instance :=
  (discoverInstances p vcnId p.instances).1

/-- The read-only calls of phase 1. -/
def discoveryTrace (p : Provider) (vcnId : String) : List ApiCall :=
  ApiCall.listInstances :: (discoverInstances p vcnId p.instances).2

/-- Python's `str.startswith`, used for the default-name check
(kernel-computable). -/
def startsWithPy (s pre : String) : Bool := List.isPrefixOf pre.data s.data

/-- Phase 2: for every route table that has any rule, issue an update
replacing its rules with the empty list; on success wait 2 seconds for
propagation (on failure the sleep inside the `try` block is skipped and
the loop continues). -/
def clearRouteRules (fails : ApiCall → Bool) : List RouteTable → List ApiCall
  | [] => []
  | rt :: rest =>
    if rt.route_rules.isEmpty then
      clearRouteRules fails rest
    else
      ApiCall.updateRouteTable rt.id [] ::
        (if fails (ApiCall.updateRouteTable rt.id []) then
          clearRouteRules fails rest
        else
          ApiCall.sleep 2 :: clearRouteRules fails rest)

/-- A per-resource deletion loop: issue the delete for every id; on
success wait 1 second (on failure the sleep inside the `try` block is
skipped); a failure never stops the loop. -/
def deleteEach (fails : ApiCall → Bool) (mk : String → ApiCall) :
    List String → List ApiCall
  | [] => []
  | i :: rest =>
    mk i ::
      (if fails (mk i) then deleteEach fails mk rest
       else ApiCall.sleep 1 :: deleteEach fails mk rest)

/-- The subnet-drain polling loop, with the provider's remaining-subnet
count abstracted as `drain : Nat → Nat` (count at the n-th poll): while
the elapsed time is below the timeout, list the subnets; stop as soon as
the list is empty, otherwise sleep one interval and repeat.  The fuel
argument bounds the recursion; `timeout + 1` iterations always suffice
when the interval is positive. -/
def drainTraceGo (vcnId : String) (drain : Nat → Nat) (interval timeout : Nat) :
    Nat → Nat → Nat → List ApiCall
  | 0, _, _ => []
  | fuel + 1, elapsed, polls =>
    if elapsed < timeout then
      ApiCall.listSubnets vcnId ::
        (if drain polls = 0 then []
         else ApiCall.sleep interval ::
           drainTraceGo vcnId drain interval timeout fuel (elapsed + interval) (polls + 1))
    else []

/-- Phase 4's trace: the code polls with a 2-second interval up to a
60-second budget. -/
def drainTrace (vcnId : String) (drain : Nat → Nat) : List ApiCall :=
  drainTraceGo vcnId drain 2 60 61 0 0

/-- The polling primitive `waitUntilEmpty` (spec §4.2), the same loop as
phase 4, returning whether the count reached zero together with the
elapsed time and the number of polls performed. -/
def waitUntilEmptyGo (lister : Nat → Nat) (interval timeout : Nat) :
    Nat → Nat → Nat → Bool × Nat × Nat
  | 0, elapsed, polls => (false, elapsed, polls)
  | fuel + 1, elapsed, polls =>
    if elapsed < timeout then
      if lister polls = 0 then (true, elapsed, polls + 1)
      else waitUntilEmptyGo lister interval timeout fuel (elapsed + interval) (polls + 1)
    else (false, elapsed, polls)

/-- `waitUntilEmpty lister interval timeout`: poll `lister` at `interval`
spacing until it returns zero or `timeout` elapses.  Returns
`(emptied, elapsed, polls)`. -/
def waitUntilEmpty (lister : Nat → Nat) (interval timeout : Nat) : Bool × Nat × Nat :=
  waitUntilEmptyGo lister interval timeout (timeout + 1) 0 0

/-- Phases 2--12 of the wizard: the full mutation sequence, entered only
after confirmation and (when needed) the proceed-despite-in-use answer. -/
def mutationTrace (p : Provider) (vcn : Vcn) (fails : ApiCall → Bool)
    (drain : Nat → Nat) : List ApiCall :=
  ApiCall.listRouteTables vcn.id ::
    clearRouteRules fails (p.routeTablesOf vcn.id) ++
  ApiCall.listSubnets vcn.id ::
    deleteEach fails ApiCall.deleteSubnet ((p.subnetsOf vcn.id).map Subnet.id) ++
  drainTrace vcn.id drain ++
  ApiCall.listInternetGateways vcn.id ::
    deleteEach fails ApiCall.deleteInternetGateway
      ((p.internetGatewaysOf vcn.id).map Gateway.id) ++
  ApiCall.listNatGateways vcn.id ::
    deleteEach fails ApiCall.deleteNatGateway
      ((p.natGatewaysOf vcn.id).map Gateway.id) ++
  ApiCall.listServiceGateways vcn.id ::
    deleteEach fails ApiCall.deleteServiceGateway
      ((p.serviceGatewaysOf vcn.id).map Gateway.id) ++
  ApiCall.listNetworkSecurityGroups vcn.id ::
    deleteEach fails ApiCall.deleteNetworkSecurityGroup
      ((p.nsgsOf vcn.id).map Gateway.id) ++
  ApiCall.listRouteTables vcn.id ::
    deleteEach fails ApiCall.deleteRouteTable
      (((p.routeTablesOf vcn.id).filter
          (fun rt => !(startsWithPy rt.display_name "Default"))).map RouteTable.id) ++
  ApiCall.listSecurityLists vcn.id ::
    deleteEach fails ApiCall.deleteSecurityList
      (((p.securityListsOf vcn.id).filter
          (fun sl => !(startsWithPy sl.display_name "Default"))).map SecurityList.id) ++
  [ApiCall.sleep 10, ApiCall.deleteVcn vcn.id]

/-- Python's `str.lower()` applied to the operator's answer, modelled as
a per-character case fold (kernel-computable). -/
def lowerAscii (s : String) : String := ⟨s.data.map Char.toLower⟩

/-- One run of `delete_vcn_wizard` after the target VCN has been chosen:
the confirmation phrase must be exactly "DELETAR"; then impact discovery
runs, and if it found in-use instances and the operator's answer is not
"s" (case-insensitively) the run aborts; otherwise the mutation sequence
runs and the outcome is terminal failure exactly when the final
`delete_vcn` call fails. -/
def wizardRun (p : Provider) (vcn : Vcn) (confirm proceed : String)
    (fails : ApiCall → Bool) (drain : Nat → Nat) :
    List ApiCall × WizardOutcome :=
  if confirm = "DELETAR" then
    let pre := ApiCall.listVcns :: discoveryTrace p vcn.id
    if instancesInVcn p vcn.id ≠ [] ∧ lowerAscii proceed ≠ "s" then
      (pre, WizardOutcome.aborted)
    else
      (pre ++ mutationTrace p vcn fails drain,
       if fails (ApiCall.deleteVcn vcn.id) then WizardOutcome.terminalFailure
       else WizardOutcome.success)
  else
    ([ApiCall.listVcns], WizardOutcome.notConfirmed)

/-- The trace of calls issued by one wizard run. -/
def wizardTrace (p : Provider) (vcn : Vcn) (confirm proceed : String)
    (fails : ApiCall → Bool) (drain : Nat → Nat) : List ApiCall :=
  (wizardRun p vcn confirm proceed fails drain).1

/-- The outcome of one wizard run. -/
def wizardOutcome (p : Provider) (vcn : Vcn) (confirm proceed : String)
    (fails : ApiCall → Bool) (drain : Nat → Nat) : WizardOutcome :=
  (wizardRun p vcn confirm proceed fails drain).2

/-- A call that mutates provider state (any update or delete, or an
instance power action). -/
def isMutation : ApiCall → Bool
  | .updateRouteTable _ _ => true
  | .deleteSubnet _ => true
  | .deleteInternetGateway _ => true
  | .deleteNatGateway _ => true
  | .deleteServiceGateway _ => true
  | .deleteNetworkSecurityGroup _ => true
  | .deleteRouteTable _ => true
  | .deleteSecurityList _ => true
  | .deleteVcn _ => true
  | .instanceAction _ _ => true
  | _ => false

/-- A call that mutates a compute instance's state. -/
def isInstanceMutation : ApiCall → Bool
  | .instanceAction _ _ => true
  | _ => false

/-- A mutation against a network-kind resource (route table, subnet,
gateway, security group, security list, or the VCN itself). -/
def isNetworkMutation : ApiCall → Bool
  | .updateRouteTable _ _ => true
  | .deleteSubnet _ => true
  | .deleteInternetGateway _ => true
  | .deleteNatGateway _ => true
  | .deleteServiceGateway _ => true
  | .deleteNetworkSecurityGroup _ => true
  | .deleteRouteTable _ => true
  | .deleteSecurityList _ => true
  | .deleteVcn _ => true
  | _ => false

/-- Rank of a mutation in the fixed phase order (reads and sleeps rank 0). -/
def phaseRank : ApiCall → Nat
  | .updateRouteTable _ _ => 1
  | .deleteSubnet _ => 2
  | .deleteInternetGateway _ => 3
  | .deleteNatGateway _ => 3
  | .deleteServiceGateway _ => 3
  | .deleteNetworkSecurityGroup _ => 4
  | .deleteRouteTable _ => 5
  | .deleteSecurityList _ => 6
  | .deleteVcn _ => 7
  | _ => 0

/-- Effect of a trace on route-table rule sets: a successful
`updateRouteTable` replaces the table's rules; every other call leaves
them unchanged.  Evaluating the result at a table id gives what a
subsequent read of that table returns. -/
def rulesAfter (fails : ApiCall → Bool) :
    List ApiCall → (String → List RouteRule) → String → List RouteRule
  | [], f => f
  | c :: rest, f =>
    match c with
    | .updateRouteTable rid newRules =>
      if fails (.updateRouteTable rid newRules) then rulesAfter fails rest f
      else rulesAfter fails rest (fun x => if x = rid then newRules else f x)
    | _ => rulesAfter fails rest f

/-- The rule set a read returns before the teardown ran: the rules of the
first listed table with the given id (empty if none). -/
def initialRules (p : Provider) (vcnId : String) (x : String) : List RouteRule :=
  match (p.routeTablesOf vcnId).find? (fun rt => rt.id = x) with
  | some rt => rt.route_rules
  | none => []

/-- Whether some ATTACHED/ATTACHING attachment of the instance resolves to
a subnet of the target VCN (the condition under which phase 1 reports the
instance). -/
def instanceMatchesVcn (p : Provider) (vcnId : String) (inst : Instance) : Bool :=
  (p.vnicAttachmentsOf inst.id).any (fun att =>
    (att.lifecycle_state == "ATTACHED" || att.lifecycle_state == "ATTACHING") &&
    (p.subnetById (p.vnicById att.vnic_id).subnet_id).vcn_id == vcnId)

/-- The delete/update calls a confirmed teardown issues, in order: rule
clearing updates, subnet deletions, gateway deletions (internet, NAT,
service), security-group deletions, custom route-table deletions, custom
security-list deletions, and the VCN deletion last. -/
def mutationCalls (p : Provider) (vcn : Vcn) : List ApiCall :=
  ((p.routeTablesOf vcn.id).filter (fun rt => !rt.route_rules.isEmpty)).map
      (fun rt => ApiCall.updateRouteTable rt.id []) ++
  (((p.subnetsOf vcn.id).map Subnet.id).map ApiCall.deleteSubnet ++
  (((p.internetGatewaysOf vcn.id).map Gateway.id).map ApiCall.deleteInternetGateway ++
  (((p.natGatewaysOf vcn.id).map Gateway.id).map ApiCall.deleteNatGateway ++
  (((p.serviceGatewaysOf vcn.id).map Gateway.id).map ApiCall.deleteServiceGateway ++
  (((p.nsgsOf vcn.id).map Gateway.id).map ApiCall.deleteNetworkSecurityGroup ++
  ((((p.routeTablesOf vcn.id).filter
      (fun rt => !(startsWithPy rt.display_name "Default"))).map RouteTable.id).map
        ApiCall.deleteRouteTable ++
  ((((p.securityListsOf vcn.id).filter
      (fun sl => !(startsWithPy sl.display_name "Default"))).map SecurityList.id).map
        ApiCall.deleteSecurityList ++
  [ApiCall.deleteVcn vcn.id])))))))

/-! Concrete fixtures: a small provider snapshot used to evaluate the
theorems on closed inputs (one VCN with a default and a custom route
table, a default and a custom security list, one subnet, one internet
gateway, one NSG, and one instance attached to the VCN through two
VNICs). -/

def vcnW : Vcn := ⟨"vcn-1", "vcn-1", "10.0.0.0/16"⟩

def rtCustomW : RouteTable :=
  ⟨"rt-custom", "rt-custom",
   [⟨"0.0.0.0/0", "igw-1"⟩, ⟨"10.1.0.0/16", "natgw-1"⟩]⟩

def rtDefaultW : RouteTable :=
  ⟨"rt-default", "Default Route Table for vcn-1", [⟨"0.0.0.0/0", "igw-1"⟩]⟩

def slCustomW : SecurityList := ⟨"sl-custom", "sl-custom"⟩

def slDefaultW : SecurityList := ⟨"sl-default", "Default Security List for vcn-1"⟩

def subnetW : Subnet := ⟨"subnet-1", "subnet-1", "vcn-1"⟩

def instW : Instance := ⟨"inst-1", "inst-1"⟩

def providerW : Provider where
  instances := []
  vnicAttachmentsOf := fun _ => []
  vnicById := fun _ => ⟨"subnet-1"⟩
  subnetById := fun _ => subnetW
  routeTablesOf := fun _ => [rtDefaultW, rtCustomW]
  subnetsOf := fun _ => [subnetW]
  internetGatewaysOf := fun _ => [⟨"igw-1", "igw-1"⟩]
  natGatewaysOf := fun _ => []
  serviceGatewaysOf := fun _ => []
  nsgsOf := fun _ => [⟨"nsg-1", "nsg-1"⟩]
  securityListsOf := fun _ => [slDefaultW, slCustomW]

/-- Like `providerW` but with one instance attached to the VCN through
two ATTACHED VNICs (for the discovery claims). -/
def providerBusyW : Provider where
  instances := [instW]
  vnicAttachmentsOf := fun _ => [⟨"ATTACHED", "vnic-1"⟩, ⟨"ATTACHED", "vnic-2"⟩]
  vnicById := fun _ => ⟨"subnet-1"⟩
  subnetById := fun _ => subnetW
  routeTablesOf := fun _ => [rtDefaultW, rtCustomW]
  subnetsOf := fun _ => [subnetW]
  internetGatewaysOf := fun _ => [⟨"igw-1", "igw-1"⟩]
  natGatewaysOf := fun _ => []
  serviceGatewaysOf := fun _ => []
  nsgsOf := fun _ => [⟨"nsg-1", "nsg-1"⟩]
  securityListsOf := fun _ => [slDefaultW, slCustomW]

/-- Like `providerW` but with no dependent resources of any kind. -/
def providerEmptyW : Provider where
  instances := []
  vnicAttachmentsOf := fun _ => []
  vnicById := fun _ => ⟨"subnet-1"⟩
  subnetById := fun _ => subnetW
  routeTablesOf := fun _ => [⟨"rt-default", "Default Route Table for vcn-1", []⟩]
  subnetsOf := fun _ => []
  internetGatewaysOf := fun _ => []
  natGatewaysOf := fun _ => []
  serviceGatewaysOf := fun _ => []
  nsgsOf := fun _ => []
  securityListsOf := fun _ => [slDefaultW]

theorem isMutation_sleep (n : Nat) : isMutation (ApiCall.sleep n) = false := rfl

theorem filter_isMutation_clearRouteRules (fails : ApiCall → Bool) (rts : List RouteTable) :
    (clearRouteRules fails rts).filter isMutation =
      (rts.filter (fun rt => !rt.route_rules.isEmpty)).map
        (fun rt => ApiCall.updateRouteTable rt.id []) := by
  induction rts with
  | nil => rfl
  | cons rt rest ih =>
    by_cases h : rt.route_rules.isEmpty
    · simp [clearRouteRules, h, ih]
    · by_cases hf : fails (ApiCall.updateRouteTable rt.id [])
      · simp [clearRouteRules, h, hf, ih, isMutation]
      · simp [clearRouteRules, h, hf, ih, isMutation]

theorem filter_isMutation_deleteEach (fails : ApiCall → Bool) (mk : String → ApiCall)
    (hmk : ∀ i, isMutation (mk i) = true) (ids : List String) :
    (deleteEach fails mk ids).filter isMutation = ids.map mk := by
  induction ids with
  | nil => rfl
  | cons i rest ih =>
    by_cases hf : fails (mk i)
    · simp [deleteEach, hf, List.filter_cons, hmk i, ih]
    · simp [deleteEach, hf, List.filter_cons, hmk i, isMutation_sleep, ih]

theorem filter_isMutation_drainTraceGo (vcnId : String) (drain : Nat → Nat)
    (interval timeout : Nat) :
    ∀ fuel elapsed polls,
      (drainTraceGo vcnId drain interval timeout fuel elapsed polls).filter isMutation = [] := by
  intro fuel
  induction fuel with
  | zero => intro elapsed polls; rfl
  | succ n ih =>
    intro elapsed polls
    by_cases h : elapsed < timeout
    · by_cases hd : drain polls = 0
      · simp [drainTraceGo, h, hd, isMutation]
      · simp [drainTraceGo, h, hd, isMutation, ih]
    · simp [drainTraceGo, h]

theorem scanAttachments_not_mutation (p : Provider) (vcnId : String)
    (atts : List VnicAttachment) :
    ∀ c ∈ (scanAttachments p vcnId atts).2, isMutation c = false := by
  induction atts with
  | nil => intro c hc; simp [scanAttachments] at hc
  | cons att rest ih =>
    intro c hc
    by_cases h : att.lifecycle_state = "ATTACHED" ∨ att.lifecycle_state = "ATTACHING"
    · by_cases hs : (p.subnetById (p.vnicById att.vnic_id).subnet_id).vcn_id = vcnId
      · simp [scanAttachments, h, hs] at hc
        rcases hc with rfl | rfl <;> rfl
      · simp [scanAttachments, h, hs] at hc
        rcases hc with rfl | rfl | hc
        · rfl
        · rfl
        · exact ih c hc
    · simp [scanAttachments, h] at hc
      exact ih c hc

theorem discoverInstances_not_mutation (p : Provider) (vcnId : String)
    (l : List Instance) :
    ∀ c ∈ (discoverInstances p vcnId l).2, isMutation c = false := by
  induction l with
  | nil => intro c hc; simp [discoverInstances] at hc
  | cons inst rest ih =>
    intro c hc
    simp [discoverInstances] at hc
    rcases hc with rfl | hc | hc
    · rfl
    · exact scanAttachments_not_mutation p vcnId _ c hc
    · exact ih c hc

theorem filter_isMutation_discoveryTrace (p : Provider) (vcnId : String) :
    (discoveryTrace p vcnId).filter isMutation = [] := by
  rw [List.filter_eq_nil_iff]
  intro c hc
  simp [discoveryTrace] at hc
  rcases hc with rfl | hc
  · simp [isMutation]
  · simp [discoverInstances_not_mutation p vcnId _ c hc]

theorem filter_isMutation_mutationTrace (p : Provider) (vcn : Vcn)
    (fails : ApiCall → Bool) (drain : Nat → Nat) :
    (mutationTrace p vcn fails drain).filter isMutation = mutationCalls p vcn := by
  simp only [mutationTrace, drainTrace, mutationCalls, List.filter_append,
    List.filter_cons, filter_isMutation_clearRouteRules, filter_isMutation_drainTraceGo,
    filter_isMutation_deleteEach fails ApiCall.deleteSubnet (fun _ => rfl),
    filter_isMutation_deleteEach fails ApiCall.deleteInternetGateway (fun _ => rfl),
    filter_isMutation_deleteEach fails ApiCall.deleteNatGateway (fun _ => rfl),
    filter_isMutation_deleteEach fails ApiCall.deleteServiceGateway (fun _ => rfl),
    filter_isMutation_deleteEach fails ApiCall.deleteNetworkSecurityGroup (fun _ => rfl),
    filter_isMutation_deleteEach fails ApiCall.deleteRouteTable (fun _ => rfl),
    filter_isMutation_deleteEach fails ApiCall.deleteSecurityList (fun _ => rfl)]
  simp [isMutation, List.map_map]

theorem wizardRun_confirmed (p : Provider) (vcn : Vcn) (confirm proceed : String)
    (fails : ApiCall → Bool) (drain : Nat → Nat)
    (hc : confirm = "DELETAR")
    (hp : instancesInVcn p vcn.id = [] ∨ lowerAscii proceed = "s") :
    wizardRun p vcn confirm proceed fails drain =
      ((ApiCall.listVcns :: discoveryTrace p vcn.id) ++ mutationTrace p vcn fails drain,
       if fails (ApiCall.deleteVcn vcn.id) then WizardOutcome.terminalFailure
       else WizardOutcome.success) := by
  subst hc
  have hcond : ¬(instancesInVcn p vcn.id ≠ [] ∧ lowerAscii proceed ≠ "s") := by
    rcases hp with h | h
    · intro hlh; exact hlh.1 h
    · intro hlh; exact hlh.2 h
  simp [wizardRun, hcond]

theorem wizardTrace_filter_confirmed (p : Provider) (vcn : Vcn)
    (confirm proceed : String) (fails : ApiCall → Bool) (drain : Nat → Nat)
    (hc : confirm = "DELETAR")
    (hp : instancesInVcn p vcn.id = [] ∨ lowerAscii proceed = "s") :
    (wizardTrace p vcn confirm proceed fails drain).filter isMutation =
      mutationCalls p vcn := by
  rw [wizardTrace, wizardRun_confirmed p vcn confirm proceed fails drain hc hp]
  simp only [List.filter_append, List.filter_cons]
  rw [filter_isMutation_discoveryTrace, filter_isMutation_mutationTrace]
  simp [isMutation]

theorem allRank_map {α : Type} (f : α → ApiCall) (k : Nat)
    (hf : ∀ x, phaseRank (f x) = k) (l : List α) :
    ∀ c ∈ l.map f, phaseRank c = k := by
  intro c hc
  rcases List.mem_map.1 hc with ⟨x, _, rfl⟩
  exact hf x

theorem allRank_pairwise (k : Nat) (l : List ApiCall) (h : ∀ c ∈ l, phaseRank c = k) :
    l.Pairwise (fun a b => phaseRank a ≤ phaseRank b) := by
  induction l with
  | nil => exact List.Pairwise.nil
  | cons a t ih =>
    refine List.Pairwise.cons ?_ (ih fun c hc => h c (List.mem_cons_of_mem a hc))
    intro b hb
    rw [h a (List.mem_cons_self a t), h b (List.mem_cons_of_mem a hb)]

theorem seg_append (k : Nat) (l₁ l₂ : List ApiCall)
    (h₁ : ∀ c ∈ l₁, phaseRank c = k)
    (h₂ : ∀ c ∈ l₂, k ≤ phaseRank c)
    (p₂ : l₂.Pairwise fun a b => phaseRank a ≤ phaseRank b) :
    ((l₁ ++ l₂).Pairwise fun a b => phaseRank a ≤ phaseRank b) ∧
      ∀ c ∈ l₁ ++ l₂, k ≤ phaseRank c := by
  constructor
  · rw [List.pairwise_append]
    refine ⟨allRank_pairwise k l₁ h₁, p₂, ?_⟩
    intro a ha b hb
    rw [h₁ a ha]
    exact h₂ b hb
  · intro c hc
    rcases List.mem_append.1 hc with h | h
    · exact (h₁ c h).ge
    · exact h₂ c h

theorem mutationCalls_pairwise (p : Provider) (vcn : Vcn) :
    (mutationCalls p vcn).Pairwise (fun a b => phaseRank a ≤ phaseRank b) := by
  have h0 : ∀ c ∈ [ApiCall.deleteVcn vcn.id], (6 : Nat) ≤ phaseRank c := by
    intro c hc
    rcases List.mem_singleton.1 hc with rfl
    exact by norm_num [phaseRank]
  have p0 : ([ApiCall.deleteVcn vcn.id]).Pairwise
      (fun a b => phaseRank a ≤ phaseRank b) := List.pairwise_singleton _ _
  have s8 := seg_append 6 _ _
    (allRank_map ApiCall.deleteSecurityList 6 (fun _ => rfl)
      (((p.securityListsOf vcn.id).filter
        (fun sl => !(startsWithPy sl.display_name "Default"))).map SecurityList.id))
    h0 p0
  have s7 := seg_append 5 _ _
    (allRank_map ApiCall.deleteRouteTable 5 (fun _ => rfl)
      (((p.routeTablesOf vcn.id).filter
        (fun rt => !(startsWithPy rt.display_name "Default"))).map RouteTable.id))
    (fun c hc => le_trans (by norm_num) (s8.2 c hc)) s8.1
  have s6 := seg_append 4 _ _
    (allRank_map ApiCall.deleteNetworkSecurityGroup 4 (fun _ => rfl)
      ((p.nsgsOf vcn.id).map Gateway.id))
    (fun c hc => le_trans (by norm_num) (s7.2 c hc)) s7.1
  have s5 := seg_append 3 _ _
    (allRank_map ApiCall.deleteServiceGateway 3 (fun _ => rfl)
      ((p.serviceGatewaysOf vcn.id).map Gateway.id))
    (fun c hc => le_trans (by norm_num) (s6.2 c hc)) s6.1
  have s4 := seg_append 3 _ _
    (allRank_map ApiCall.deleteNatGateway 3 (fun _ => rfl)
      ((p.natGatewaysOf vcn.id).map Gateway.id))
    (fun c hc => le_trans (by norm_num) (s5.2 c hc)) s5.1
  have s3 := seg_append 3 _ _
    (allRank_map ApiCall.deleteInternetGateway 3 (fun _ => rfl)
      ((p.internetGatewaysOf vcn.id).map Gateway.id))
    (fun c hc => le_trans (by norm_num) (s4.2 c hc)) s4.1
  have s2 := seg_append 2 _ _
    (allRank_map ApiCall.deleteSubnet 2 (fun _ => rfl)
      ((p.subnetsOf vcn.id).map Subnet.id))
    (fun c hc => le_trans (by norm_num) (s3.2 c hc)) s3.1
  have s1 := seg_append 1 _ _
    (allRank_map (fun rt => ApiCall.updateRouteTable rt.id []) 1 (fun _ => rfl)
      ((p.routeTablesOf vcn.id).filter (fun rt => !rt.route_rules.isEmpty)))
    (fun c hc => le_trans (by norm_num) (s2.2 c hc)) s2.1
  exact s1.1

theorem mutationCalls_getLast (p : Provider) (vcn : Vcn) :
    (mutationCalls p vcn).getLast? = some (ApiCall.deleteVcn vcn.id) := by
  unfold mutationCalls
  rw [List.getLast?_append_of_ne_nil, List.getLast?_append_of_ne_nil,
    List.getLast?_append_of_ne_nil, List.getLast?_append_of_ne_nil,
    List.getLast?_append_of_ne_nil, List.getLast?_append_of_ne_nil,
    List.getLast?_append_of_ne_nil, List.getLast?_append_of_ne_nil] <;>
    simp

theorem mem_mutationCalls_update (p : Provider) (vcn : Vcn) {rt : RouteTable}
    (hrt : rt ∈ p.routeTablesOf vcn.id) (hne : rt.route_rules.isEmpty = false) :
    ApiCall.updateRouteTable rt.id [] ∈ mutationCalls p vcn :=
  List.mem_append_left _
    (List.mem_map_of_mem _ (List.mem_filter_of_mem hrt (by simp [hne])))

theorem mem_mutationCalls_deleteSubnet (p : Provider) (vcn : Vcn) {s : Subnet}
    (hs : s ∈ p.subnetsOf vcn.id) :
    ApiCall.deleteSubnet s.id ∈ mutationCalls p vcn :=
  List.mem_append_right _ (List.mem_append_left _
    (List.mem_map_of_mem _ (List.mem_map_of_mem _ hs)))

theorem mem_mutationCalls_deleteIg (p : Provider) (vcn : Vcn) {g : Gateway}
    (hg : g ∈ p.internetGatewaysOf vcn.id) :
    ApiCall.deleteInternetGateway g.id ∈ mutationCalls p vcn :=
  List.mem_append_right _ (List.mem_append_right _ (List.mem_append_left _
    (List.mem_map_of_mem _ (List.mem_map_of_mem _ hg))))

theorem mem_mutationCalls_deleteNat (p : Provider) (vcn : Vcn) {g : Gateway}
    (hg : g ∈ p.natGatewaysOf vcn.id) :
    ApiCall.deleteNatGateway g.id ∈ mutationCalls p vcn :=
  List.mem_append_right _ (List.mem_append_right _ (List.mem_append_right _
    (List.mem_append_left _ (List.mem_map_of_mem _ (List.mem_map_of_mem _ hg)))))

theorem mem_mutationCalls_deleteSg (p : Provider) (vcn : Vcn) {g : Gateway}
    (hg : g ∈ p.serviceGatewaysOf vcn.id) :
    ApiCall.deleteServiceGateway g.id ∈ mutationCalls p vcn :=
  List.mem_append_right _ (List.mem_append_right _ (List.mem_append_right _
    (List.mem_append_right _ (List.mem_append_left _
      (List.mem_map_of_mem _ (List.mem_map_of_mem _ hg))))))

theorem mem_mutationCalls_deleteNsg (p : Provider) (vcn : Vcn) {g : Gateway}
    (hg : g ∈ p.nsgsOf vcn.id) :
    ApiCall.deleteNetworkSecurityGroup g.id ∈ mutationCalls p vcn :=
  List.mem_append_right _ (List.mem_append_right _ (List.mem_append_right _
    (List.mem_append_right _ (List.mem_append_right _ (List.mem_append_left _
      (List.mem_map_of_mem _ (List.mem_map_of_mem _ hg)))))))

theorem mem_mutationCalls_deleteRt (p : Provider) (vcn : Vcn) {rt : RouteTable}
    (hrt : rt ∈ p.routeTablesOf vcn.id)
    (hname : startsWithPy rt.display_name "Default" = false) :
    ApiCall.deleteRouteTable rt.id ∈ mutationCalls p vcn :=
  List.mem_append_right _ (List.mem_append_right _ (List.mem_append_right _
    (List.mem_append_right _ (List.mem_append_right _ (List.mem_append_right _
      (List.mem_append_left _ (List.mem_map_of_mem _ (List.mem_map_of_mem _
        (List.mem_filter_of_mem hrt (by simp [hname]))))))))))

theorem mem_mutationCalls_deleteSl (p : Provider) (vcn : Vcn) {sl : SecurityList}
    (hsl : sl ∈ p.securityListsOf vcn.id)
    (hname : startsWithPy sl.display_name "Default" = false) :
    ApiCall.deleteSecurityList sl.id ∈ mutationCalls p vcn :=
  List.mem_append_right _ (List.mem_append_right _ (List.mem_append_right _
    (List.mem_append_right _ (List.mem_append_right _ (List.mem_append_right _
      (List.mem_append_right _ (List.mem_append_left _
        (List.mem_map_of_mem _ (List.mem_map_of_mem _
          (List.mem_filter_of_mem hsl (by simp [hname])))))))))))

theorem mem_mutationCalls_deleteVcn (p : Provider) (vcn : Vcn) :
    ApiCall.deleteVcn vcn.id ∈ mutationCalls p vcn :=
  List.mem_append_right _ (List.mem_append_right _ (List.mem_append_right _
    (List.mem_append_right _ (List.mem_append_right _ (List.mem_append_right _
      (List.mem_append_right _ (List.mem_append_right _
        (List.mem_singleton_self _))))))))

/-- Under a confirmed, proceeding run, any call of the mutation checklist
is in the trace. -/
theorem mem_wizardTrace_of_mem_mutationCalls (p : Provider) (vcn : Vcn)
    (confirm proceed : String) (fails : ApiCall → Bool) (drain : Nat → Nat)
    (hc : confirm = "DELETAR")
    (hp : instancesInVcn p vcn.id = [] ∨ lowerAscii proceed = "s")
    {c : ApiCall} (hmem : c ∈ mutationCalls p vcn) :
    c ∈ wizardTrace p vcn confirm proceed fails drain := by
  have h := wizardTrace_filter_confirmed p vcn confirm proceed fails drain hc hp
  exact List.mem_of_mem_filter (h ▸ hmem)

/-- C1: in every teardown run that reaches the mutation sequence, the
provider calls occur in the fixed phase order — route-rule clearing
updates before any subnet deletion, subnet deletions before gateway
deletions, gateway deletions before security-group deletions, those
before custom route-table deletions, those before custom security-list
deletions — and the deletion of the VCN itself is the last delete call
issued (the mutation subtrace is ordered by phase rank and ends with
`deleteVcn`). -/
theorem claim1_phase_order (p : Provider) (vcn : Vcn) (confirm proceed : String)
    (fails : ApiCall → Bool) (drain : Nat → Nat)
    (hc : confirm = "DELETAR")
    (hp : instancesInVcn p vcn.id = [] ∨ lowerAscii proceed = "s") :
    ((wizardTrace p vcn confirm proceed fails drain).filter isMutation).Pairwise
        (fun a b => phaseRank a ≤ phaseRank b) ∧
      ((wizardTrace p vcn confirm proceed fails drain).filter isMutation).getLast? =
        some (ApiCall.deleteVcn vcn.id) := by
  rw [wizardTrace_filter_confirmed p vcn confirm proceed fails drain hc hp]
  exact ⟨mutationCalls_pairwise p vcn, mutationCalls_getLast p vcn⟩

theorem claim1_phase_order_witness :
    ((wizardTrace providerW vcnW "DELETAR" "n" (fun _ => false) (fun _ => 0)).filter
        isMutation).Pairwise (fun a b => phaseRank a ≤ phaseRank b) ∧
      ((wizardTrace providerW vcnW "DELETAR" "n" (fun _ => false) (fun _ => 0)).filter
        isMutation).getLast? = some (ApiCall.deleteVcn vcnW.id) :=
  claim1_phase_order providerW vcnW "DELETAR" "n" (fun _ => false) (fun _ => 0)
    rfl (Or.inl (by decide))

/-- C2: in a confirmed, proceeding run, every resource of phases 2–8 —
including every ruled route table of the rule-clearing phase — receives
its update/delete call no matter which other calls fail (a per-resource
failure is non-fatal and the workflow continues with every remaining
resource and phase, up to and including the final `deleteVcn` call); the
overall outcome is a terminal failure exactly when the final `deleteVcn`
call itself fails, and success otherwise. -/
theorem claim2_failure_policy (p : Provider) (vcn : Vcn) (confirm proceed : String)
    (fails : ApiCall → Bool) (drain : Nat → Nat)
    (hc : confirm = "DELETAR")
    (hp : instancesInVcn p vcn.id = [] ∨ lowerAscii proceed = "s") :
    (∀ rt ∈ p.routeTablesOf vcn.id, rt.route_rules.isEmpty = false →
        ApiCall.updateRouteTable rt.id [] ∈ wizardTrace p vcn confirm proceed fails drain) ∧
    (∀ s ∈ p.subnetsOf vcn.id,
        ApiCall.deleteSubnet s.id ∈ wizardTrace p vcn confirm proceed fails drain) ∧
    (∀ g ∈ p.internetGatewaysOf vcn.id,
        ApiCall.deleteInternetGateway g.id ∈ wizardTrace p vcn confirm proceed fails drain) ∧
    (∀ g ∈ p.natGatewaysOf vcn.id,
        ApiCall.deleteNatGateway g.id ∈ wizardTrace p vcn confirm proceed fails drain) ∧
    (∀ g ∈ p.serviceGatewaysOf vcn.id,
        ApiCall.deleteServiceGateway g.id ∈ wizardTrace p vcn confirm proceed fails drain) ∧
    (∀ g ∈ p.nsgsOf vcn.id,
        ApiCall.deleteNetworkSecurityGroup g.id ∈ wizardTrace p vcn confirm proceed fails drain) ∧
    (∀ rt ∈ p.routeTablesOf vcn.id, startsWithPy rt.display_name "Default" = false →
        ApiCall.deleteRouteTable rt.id ∈ wizardTrace p vcn confirm proceed fails drain) ∧
    (∀ sl ∈ p.securityListsOf vcn.id, startsWithPy sl.display_name "Default" = false →
        ApiCall.deleteSecurityList sl.id ∈ wizardTrace p vcn confirm proceed fails drain) ∧
    ApiCall.deleteVcn vcn.id ∈ wizardTrace p vcn confirm proceed fails drain ∧
    wizardOutcome p vcn confirm proceed fails drain =
      (if fails (ApiCall.deleteVcn vcn.id) then WizardOutcome.terminalFailure
       else WizardOutcome.success) := by
  refine ⟨?_, ?_, ?_, ?_, ?_, ?_, ?_, ?_, ?_, ?_⟩
  · intro rt hrt hne
    exact mem_wizardTrace_of_mem_mutationCalls p vcn confirm proceed fails drain hc hp
      (mem_mutationCalls_update p vcn hrt hne)
  · intro s hs
    exact mem_wizardTrace_of_mem_mutationCalls p vcn confirm proceed fails drain hc hp
      (mem_mutationCalls_deleteSubnet p vcn hs)
  · intro g hg
    exact mem_wizardTrace_of_mem_mutationCalls p vcn confirm proceed fails drain hc hp
      (mem_mutationCalls_deleteIg p vcn hg)
  · intro g hg
    exact mem_wizardTrace_of_mem_mutationCalls p vcn confirm proceed fails drain hc hp
      (mem_mutationCalls_deleteNat p vcn hg)
  · intro g hg
    exact mem_wizardTrace_of_mem_mutationCalls p vcn confirm proceed fails drain hc hp
      (mem_mutationCalls_deleteSg p vcn hg)
  · intro g hg
    exact mem_wizardTrace_of_mem_mutationCalls p vcn confirm proceed fails drain hc hp
      (mem_mutationCalls_deleteNsg p vcn hg)
  · intro rt hrt hname
    exact mem_wizardTrace_of_mem_mutationCalls p vcn confirm proceed fails drain hc hp
      (mem_mutationCalls_deleteRt p vcn hrt hname)
  · intro sl hsl hname
    exact mem_wizardTrace_of_mem_mutationCalls p vcn confirm proceed fails drain hc hp
      (mem_mutationCalls_deleteSl p vcn hsl hname)
  · exact mem_wizardTrace_of_mem_mutationCalls p vcn confirm proceed fails drain hc hp
      (mem_mutationCalls_deleteVcn p vcn)
  · rw [wizardOutcome, wizardRun_confirmed p vcn confirm proceed fails drain hc hp]

theorem claim2_failure_policy_witness :
    (∀ rt ∈ providerW.routeTablesOf vcnW.id, rt.route_rules.isEmpty = false →
        ApiCall.updateRouteTable rt.id [] ∈
          wizardTrace providerW vcnW "DELETAR" "n"
            (fun c => c == ApiCall.deleteSubnet "subnet-1") (fun _ => 1)) ∧
    (∀ s ∈ providerW.subnetsOf vcnW.id,
        ApiCall.deleteSubnet s.id ∈
          wizardTrace providerW vcnW "DELETAR" "n"
            (fun c => c == ApiCall.deleteSubnet "subnet-1") (fun _ => 1)) ∧
    (∀ g ∈ providerW.internetGatewaysOf vcnW.id,
        ApiCall.deleteInternetGateway g.id ∈
          wizardTrace providerW vcnW "DELETAR" "n"
            (fun c => c == ApiCall.deleteSubnet "subnet-1") (fun _ => 1)) ∧
    (∀ g ∈ providerW.natGatewaysOf vcnW.id,
        ApiCall.deleteNatGateway g.id ∈
          wizardTrace providerW vcnW "DELETAR" "n"
            (fun c => c == ApiCall.deleteSubnet "subnet-1") (fun _ => 1)) ∧
    (∀ g ∈ providerW.serviceGatewaysOf vcnW.id,
        ApiCall.deleteServiceGateway g.id ∈
          wizardTrace providerW vcnW "DELETAR" "n"
            (fun c => c == ApiCall.deleteSubnet "subnet-1") (fun _ => 1)) ∧
    (∀ g ∈ providerW.nsgsOf vcnW.id,
        ApiCall.deleteNetworkSecurityGroup g.id ∈
          wizardTrace providerW vcnW "DELETAR" "n"
            (fun c => c == ApiCall.deleteSubnet "subnet-1") (fun _ => 1)) ∧
    (∀ rt ∈ providerW.routeTablesOf vcnW.id,
        startsWithPy rt.display_name "Default" = false →
        ApiCall.deleteRouteTable rt.id ∈
          wizardTrace providerW vcnW "DELETAR" "n"
            (fun c => c == ApiCall.deleteSubnet "subnet-1") (fun _ => 1)) ∧
    (∀ sl ∈ providerW.securityListsOf vcnW.id,
        startsWithPy sl.display_name "Default" = false →
        ApiCall.deleteSecurityList sl.id ∈
          wizardTrace providerW vcnW "DELETAR" "n"
            (fun c => c == ApiCall.deleteSubnet "subnet-1") (fun _ => 1)) ∧
    ApiCall.deleteVcn vcnW.id ∈
      wizardTrace providerW vcnW "DELETAR" "n"
        (fun c => c == ApiCall.deleteSubnet "subnet-1") (fun _ => 1) ∧
    wizardOutcome providerW vcnW "DELETAR" "n"
        (fun c => c == ApiCall.deleteSubnet "subnet-1") (fun _ => 1) =
      (if (fun c => c == ApiCall.deleteSubnet "subnet-1") (ApiCall.deleteVcn vcnW.id)
       then WizardOutcome.terminalFailure else WizardOutcome.success) :=
  claim2_failure_policy providerW vcnW "DELETAR" "n"
    (fun c => c == ApiCall.deleteSubnet "subnet-1") (fun _ => 1)
    rfl (Or.inl (by decide))

theorem wizardRun_not_confirmed (p : Provider) (vcn : Vcn)
    (confirm proceed : String) (fails : ApiCall → Bool) (drain : Nat → Nat)
    (hc : confirm ≠ "DELETAR") :
    wizardRun p vcn confirm proceed fails drain =
      ([ApiCall.listVcns], WizardOutcome.notConfirmed) := by
  simp [wizardRun, hc]

/-- C3: for every confirmation token other than the exact phrase
"DELETAR", the teardown rejects the request with no side effects: the
trace contains no delete or update call of any kind and the outcome is
the not-confirmed rejection. -/
theorem claim3_not_confirmed (p : Provider) (vcn : Vcn) (confirm proceed : String)
    (fails : ApiCall → Bool) (drain : Nat → Nat)
    (hc : confirm ≠ "DELETAR") :
    (wizardTrace p vcn confirm proceed fails drain).filter isMutation = [] ∧
      wizardOutcome p vcn confirm proceed fails drain = WizardOutcome.notConfirmed := by
  rw [wizardTrace, wizardOutcome,
    wizardRun_not_confirmed p vcn confirm proceed fails drain hc]
  exact ⟨rfl, rfl⟩

theorem claim3_not_confirmed_witness :
    (wizardTrace providerW vcnW "delete" "s" (fun _ => false) (fun _ => 0)).filter
        isMutation = [] ∧
      wizardOutcome providerW vcnW "delete" "s" (fun _ => false) (fun _ => 0) =
        WizardOutcome.notConfirmed :=
  claim3_not_confirmed providerW vcnW "delete" "s" (fun _ => false) (fun _ => 0)
    (by decide)

theorem wizardRun_aborted (p : Provider) (vcn : Vcn)
    (confirm proceed : String) (fails : ApiCall → Bool) (drain : Nat → Nat)
    (hc : confirm = "DELETAR")
    (hne : instancesInVcn p vcn.id ≠ [])
    (hdecline : lowerAscii proceed ≠ "s") :
    wizardRun p vcn confirm proceed fails drain =
      (ApiCall.listVcns :: discoveryTrace p vcn.id, WizardOutcome.aborted) := by
  subst hc
  simp [wizardRun, hne, hdecline]

/-- C4: if impact discovery finds at least one instance attached to the
target VCN and the operator declines the proceed-despite-in-use prompt,
the teardown aborts and the trace contains no delete or update call
against any resource. -/
theorem claim4_abort_no_mutation (p : Provider) (vcn : Vcn)
    (confirm proceed : String) (fails : ApiCall → Bool) (drain : Nat → Nat)
    (hc : confirm = "DELETAR")
    (hne : instancesInVcn p vcn.id ≠ [])
    (hdecline : lowerAscii proceed ≠ "s") :
    (wizardTrace p vcn confirm proceed fails drain).filter isMutation = [] ∧
      wizardOutcome p vcn confirm proceed fails drain = WizardOutcome.aborted := by
  rw [wizardTrace, wizardOutcome,
    wizardRun_aborted p vcn confirm proceed fails drain hc hne hdecline]
  refine ⟨?_, rfl⟩
  simp [List.filter_cons, isMutation, filter_isMutation_discoveryTrace]

theorem claim4_abort_no_mutation_witness :
    (wizardTrace providerBusyW vcnW "DELETAR" "n" (fun _ => false) (fun _ => 0)).filter
        isMutation = [] ∧
      wizardOutcome providerBusyW vcnW "DELETAR" "n" (fun _ => false) (fun _ => 0) =
        WizardOutcome.aborted :=
  claim4_abort_no_mutation providerBusyW vcnW "DELETAR" "n" (fun _ => false)
    (fun _ => 0) rfl (by decide) (by decide)

/-- Any mutation in the trace of a confirmed, proceeding run is in the
mutation checklist. -/
theorem wizardTrace_mutation_mem (p : Provider) (vcn : Vcn)
    (confirm proceed : String) (fails : ApiCall → Bool) (drain : Nat → Nat)
    (hc : confirm = "DELETAR")
    (hp : instancesInVcn p vcn.id = [] ∨ lowerAscii proceed = "s")
    {c : ApiCall} (hmut : isMutation c = true)
    (hmem : c ∈ wizardTrace p vcn confirm proceed fails drain) :
    c ∈ mutationCalls p vcn := by
  have h := wizardTrace_filter_confirmed p vcn confirm proceed fails drain hc hp
  exact h ▸ List.mem_filter.2 ⟨hmem, hmut⟩

theorem mutationCalls_deleteRt_inv (p : Provider) (vcn : Vcn) {rid : String}
    (h : ApiCall.deleteRouteTable rid ∈ mutationCalls p vcn) :
    ∃ rt ∈ p.routeTablesOf vcn.id,
      rt.id = rid ∧ startsWithPy rt.display_name "Default" = false := by
  simp only [mutationCalls, List.mem_append, List.mem_map, List.mem_singleton,
    List.mem_filter] at h
  rcases h with ⟨rt, hrt, hEq⟩ | ⟨i, hi, hEq⟩ | ⟨i, hi, hEq⟩ | ⟨i, hi, hEq⟩ |
    ⟨i, hi, hEq⟩ | ⟨i, hi, hEq⟩ | ⟨i, hi, hEq⟩ | ⟨i, hi, hEq⟩ | hEq
  all_goals first
  | (cases hEq
     rcases hi with ⟨rt, ⟨hrtMem, hrtName⟩, rfl⟩
     exact ⟨rt, hrtMem, rfl, by simpa using hrtName⟩)
  | (cases hEq)

theorem mutationCalls_deleteSl_inv (p : Provider) (vcn : Vcn) {sid : String}
    (h : ApiCall.deleteSecurityList sid ∈ mutationCalls p vcn) :
    ∃ sl ∈ p.securityListsOf vcn.id,
      sl.id = sid ∧ startsWithPy sl.display_name "Default" = false := by
  simp only [mutationCalls, List.mem_append, List.mem_map, List.mem_singleton,
    List.mem_filter] at h
  rcases h with ⟨rt, hrt, hEq⟩ | ⟨i, hi, hEq⟩ | ⟨i, hi, hEq⟩ | ⟨i, hi, hEq⟩ |
    ⟨i, hi, hEq⟩ | ⟨i, hi, hEq⟩ | ⟨i, hi, hEq⟩ | ⟨i, hi, hEq⟩ | hEq
  all_goals first
  | (cases hEq
     rcases hi with ⟨sl, ⟨hslMem, hslName⟩, rfl⟩
     exact ⟨sl, hslMem, rfl, by simpa using hslName⟩)
  | (cases hEq)

theorem mutationCalls_update_inv (p : Provider) (vcn : Vcn)
    {rid : String} {rules : List RouteRule}
    (h : ApiCall.updateRouteTable rid rules ∈ mutationCalls p vcn) :
    rules = [] ∧ ∃ rt ∈ p.routeTablesOf vcn.id,
      rt.id = rid ∧ rt.route_rules.isEmpty = false := by
  simp only [mutationCalls, List.mem_append, List.mem_map, List.mem_singleton,
    List.mem_filter] at h
  rcases h with ⟨rt, hrt, hEq⟩ | ⟨i, hi, hEq⟩ | ⟨i, hi, hEq⟩ | ⟨i, hi, hEq⟩ |
    ⟨i, hi, hEq⟩ | ⟨i, hi, hEq⟩ | ⟨i, hi, hEq⟩ | ⟨i, hi, hEq⟩ | hEq
  all_goals first
  | (rcases hrt with ⟨hrtMem, hrtNe⟩
     cases hEq
     exact ⟨rfl, rt, hrtMem, rfl, by simpa using hrtNe⟩)
  | (cases hEq)

/-- C5: in a confirmed, proceeding run, no delete call is ever issued
against a default-named route table or security list (provided no custom
resource shares its id); the network-level deletion itself is issued. -/
theorem claim5_default_preserved (p : Provider) (vcn : Vcn)
    (confirm proceed : String) (fails : ApiCall → Bool) (drain : Nat → Nat)
    (hc : confirm = "DELETAR")
    (hp : instancesInVcn p vcn.id = [] ∨ lowerAscii proceed = "s") :
    (∀ rt ∈ p.routeTablesOf vcn.id, startsWithPy rt.display_name "Default" = true →
      (∀ rt' ∈ p.routeTablesOf vcn.id, rt'.id = rt.id →
        startsWithPy rt'.display_name "Default" = true) →
      ApiCall.deleteRouteTable rt.id ∉ wizardTrace p vcn confirm proceed fails drain) ∧
    (∀ sl ∈ p.securityListsOf vcn.id, startsWithPy sl.display_name "Default" = true →
      (∀ sl' ∈ p.securityListsOf vcn.id, sl'.id = sl.id →
        startsWithPy sl'.display_name "Default" = true) →
      ApiCall.deleteSecurityList sl.id ∉ wizardTrace p vcn confirm proceed fails drain) ∧
    ApiCall.deleteVcn vcn.id ∈ wizardTrace p vcn confirm proceed fails drain := by
  refine ⟨?_, ?_, ?_⟩
  · intro rt hrtm _ halias hmem
    have hcalls := wizardTrace_mutation_mem p vcn confirm proceed fails drain hc hp
      (show isMutation (ApiCall.deleteRouteTable rt.id) = true from rfl) hmem
    rcases mutationCalls_deleteRt_inv p vcn hcalls with ⟨rt', hrt', hid, hname⟩
    rw [halias rt' hrt' hid] at hname
    cases hname
  · intro sl hslm _ halias hmem
    have hcalls := wizardTrace_mutation_mem p vcn confirm proceed fails drain hc hp
      (show isMutation (ApiCall.deleteSecurityList sl.id) = true from rfl) hmem
    rcases mutationCalls_deleteSl_inv p vcn hcalls with ⟨sl', hsl', hid, hname⟩
    rw [halias sl' hsl' hid] at hname
    cases hname
  · exact mem_wizardTrace_of_mem_mutationCalls p vcn confirm proceed fails drain hc hp
      (mem_mutationCalls_deleteVcn p vcn)

theorem claim5_default_preserved_witness :
    (∀ rt ∈ providerW.routeTablesOf vcnW.id,
      startsWithPy rt.display_name "Default" = true →
      (∀ rt' ∈ providerW.routeTablesOf vcnW.id, rt'.id = rt.id →
        startsWithPy rt'.display_name "Default" = true) →
      ApiCall.deleteRouteTable rt.id ∉
        wizardTrace providerW vcnW "DELETAR" "n" (fun _ => false) (fun _ => 0)) ∧
    (∀ sl ∈ providerW.securityListsOf vcnW.id,
      startsWithPy sl.display_name "Default" = true →
      (∀ sl' ∈ providerW.securityListsOf vcnW.id, sl'.id = sl.id →
        startsWithPy sl'.display_name "Default" = true) →
      ApiCall.deleteSecurityList sl.id ∉
        wizardTrace providerW vcnW "DELETAR" "n" (fun _ => false) (fun _ => 0)) ∧
    ApiCall.deleteVcn vcnW.id ∈
      wizardTrace providerW vcnW "DELETAR" "n" (fun _ => false) (fun _ => 0) :=
  claim5_default_preserved providerW vcnW "DELETAR" "n" (fun _ => false) (fun _ => 0)
    rfl (Or.inl (by decide))

theorem rulesAfter_append (fails : ApiCall → Bool) (a b : List ApiCall)
    (f : String → List RouteRule) :
    rulesAfter fails (a ++ b) f = rulesAfter fails b (rulesAfter fails a f) := by
  induction a generalizing f with
  | nil => rfl
  | cons c rest ih =>
    cases c with
    | updateRouteTable rid rules =>
      by_cases hf : fails (ApiCall.updateRouteTable rid rules)
      · simp only [List.cons_append, rulesAfter, if_pos hf]
        exact ih f
      · simp only [List.cons_append, rulesAfter, if_neg hf]
        exact ih _
    | _ => exact ih f

theorem rulesAfter_preserve_empty (fails : ApiCall → Bool) (t : List ApiCall)
    (x : String)
    (hall : ∀ rid rules, ApiCall.updateRouteTable rid rules ∈ t → rules = []) :
    ∀ f : String → List RouteRule, f x = [] → rulesAfter fails t f x = [] := by
  induction t with
  | nil => intro f hx; exact hx
  | cons c rest ih =>
    have htail : ∀ rid rules, ApiCall.updateRouteTable rid rules ∈ rest → rules = [] :=
      fun rid rules hm => hall rid rules (List.mem_cons_of_mem _ hm)
    intro f hx
    cases c with
    | updateRouteTable rid rules =>
      have hrules : rules = [] := hall rid rules (List.mem_cons_self _ _)
      subst hrules
      by_cases hf : fails (ApiCall.updateRouteTable rid [])
      · simp only [rulesAfter, if_pos hf]
        exact ih htail f hx
      · simp only [rulesAfter, if_neg hf]
        refine ih htail _ ?_
        by_cases hxr : x = rid <;> simp [hxr, hx]
    | _ => exact ih htail f hx

/-- After a successful update of table `x` to the empty rule set, if every
later update also writes the empty rule set, a read of `x` returns the
empty rule set. -/
theorem rulesAfter_empty_of_mem (fails : ApiCall → Bool) (t : List ApiCall)
    (x : String) (f : String → List RouteRule)
    (hmem : ApiCall.updateRouteTable x [] ∈ t)
    (hok : fails (ApiCall.updateRouteTable x []) = false)
    (hall : ∀ rid rules, ApiCall.updateRouteTable rid rules ∈ t → rules = []) :
    rulesAfter fails t f x = [] := by
  rcases List.append_of_mem hmem with ⟨t₁, t₂, rfl⟩
  rw [show t₁ ++ ApiCall.updateRouteTable x [] :: t₂ =
        (t₁ ++ [ApiCall.updateRouteTable x []]) ++ t₂ by simp,
    rulesAfter_append]
  refine rulesAfter_preserve_empty fails t₂ x ?_ _ ?_
  · intro rid rules hm
    exact hall rid rules (by simp [hm])
  · rw [rulesAfter_append]
    simp only [rulesAfter, hok, if_neg (by simp [hok] : ¬fails (ApiCall.updateRouteTable x []) = true)]
    simp

/-- Every update issued anywhere in a wizard trace writes the empty rule
set and targets a table that had rules. -/
theorem wizardTrace_update_inv (p : Provider) (vcn : Vcn)
    (confirm proceed : String) (fails : ApiCall → Bool) (drain : Nat → Nat) :
    ∀ rid rules, ApiCall.updateRouteTable rid rules ∈
        wizardTrace p vcn confirm proceed fails drain →
      rules = [] ∧ ∃ rt ∈ p.routeTablesOf vcn.id,
        rt.id = rid ∧ rt.route_rules.isEmpty = false := by
  intro rid rules hmem
  by_cases hc : confirm = "DELETAR"
  · by_cases habort : instancesInVcn p vcn.id ≠ [] ∧ lowerAscii proceed ≠ "s"
    · rw [wizardTrace, wizardRun_aborted p vcn confirm proceed fails drain hc
        habort.1 habort.2] at hmem
      rcases List.mem_cons.1 hmem with h | h
      · cases h
      · have := discoverInstances_not_mutation p vcn.id p.instances
        rcases List.mem_cons.1 h with h' | h'
        · cases h'
        · cases (this _ h')
    · push_neg at habort
      have hp : instancesInVcn p vcn.id = [] ∨ lowerAscii proceed = "s" := by
        by_cases hi : instancesInVcn p vcn.id = []
        · exact Or.inl hi
        · exact Or.inr (habort hi)
      exact mutationCalls_update_inv p vcn
        (wizardTrace_mutation_mem p vcn confirm proceed fails drain hc hp
          (show isMutation (ApiCall.updateRouteTable rid rules) = true from rfl) hmem)
  · rw [wizardTrace, wizardRun_not_confirmed p vcn confirm proceed fails drain hc]
      at hmem
    cases List.mem_singleton.1 hmem

theorem clearRouteRules_infix (fails : ApiCall → Bool) {rt : RouteTable}
    {rts : List RouteTable} (h : rt ∈ rts)
    (hne : rt.route_rules.isEmpty = false)
    (hok : fails (ApiCall.updateRouteTable rt.id []) = false) :
    [ApiCall.updateRouteTable rt.id [], ApiCall.sleep 2] <:+:
      clearRouteRules fails rts := by
  induction rts with
  | nil => cases h
  | cons rt0 rest ih =>
    rcases List.mem_cons.1 h with rfl | h0
    · refine ⟨[], clearRouteRules fails rest, ?_⟩
      simp [clearRouteRules, hne, hok]
    · have hsuf : clearRouteRules fails rest <:+ clearRouteRules fails (rt0 :: rest) := by
        by_cases h1 : rt0.route_rules.isEmpty
        · simp [clearRouteRules, h1]
        · by_cases h2 : fails (ApiCall.updateRouteTable rt0.id [])
          · simp only [clearRouteRules, if_neg h1, if_pos h2]
            exact List.suffix_cons _ _
          · simp only [clearRouteRules, if_neg h1, if_neg h2]
            exact (List.suffix_cons _ _).trans (List.suffix_cons _ _)
      exact (ih h0).trans hsuf.isInfix

/-- C6: in a confirmed, proceeding run, every route table of the target
VCN that has a non-empty rule set receives an update replacing its rules
with the empty collection, and when that update succeeds it is
immediately followed by the fixed settle delay and a subsequent read of
the table returns the empty rule set; moreover every update issued by the
run writes the empty rule set and targets a table that had rules (so a
table whose rule set is already empty receives no update). -/
theorem claim6_rule_clearing (p : Provider) (vcn : Vcn)
    (confirm proceed : String) (fails : ApiCall → Bool) (drain : Nat → Nat)
    (hc : confirm = "DELETAR")
    (hp : instancesInVcn p vcn.id = [] ∨ lowerAscii proceed = "s") :
    (∀ rt ∈ p.routeTablesOf vcn.id, rt.route_rules.isEmpty = false →
      ApiCall.updateRouteTable rt.id [] ∈ wizardTrace p vcn confirm proceed fails drain ∧
      (fails (ApiCall.updateRouteTable rt.id []) = false →
        ([ApiCall.updateRouteTable rt.id [], ApiCall.sleep 2] <:+:
          wizardTrace p vcn confirm proceed fails drain) ∧
        rulesAfter fails (wizardTrace p vcn confirm proceed fails drain)
          (initialRules p vcn.id) rt.id = [])) ∧
    (∀ rid rules, ApiCall.updateRouteTable rid rules ∈
        wizardTrace p vcn confirm proceed fails drain →
      rules = [] ∧ ∃ rt ∈ p.routeTablesOf vcn.id,
        rt.id = rid ∧ rt.route_rules.isEmpty = false) := by
  constructor
  · intro rt hrt hne
    have hmem : ApiCall.updateRouteTable rt.id [] ∈
        wizardTrace p vcn confirm proceed fails drain :=
      mem_wizardTrace_of_mem_mutationCalls p vcn confirm proceed fails drain hc hp
        (mem_mutationCalls_update p vcn hrt hne)
    refine ⟨hmem, fun hok => ⟨?_, ?_⟩⟩
    · have h1 : [ApiCall.updateRouteTable rt.id [], ApiCall.sleep 2] <:+:
          clearRouteRules fails (p.routeTablesOf vcn.id) :=
        clearRouteRules_infix fails hrt hne hok
      have h2 : clearRouteRules fails (p.routeTablesOf vcn.id) <:+:
          wizardTrace p vcn confirm proceed fails drain := by
        rw [wizardTrace, wizardRun_confirmed p vcn confirm proceed fails drain hc hp]
        refine ⟨(ApiCall.listVcns :: discoveryTrace p vcn.id) ++
          [ApiCall.listRouteTables vcn.id], ?_, ?_⟩
        · exact ApiCall.listSubnets vcn.id ::
            deleteEach fails ApiCall.deleteSubnet ((p.subnetsOf vcn.id).map Subnet.id) ++
            drainTrace vcn.id drain ++
            ApiCall.listInternetGateways vcn.id ::
              deleteEach fails ApiCall.deleteInternetGateway
                ((p.internetGatewaysOf vcn.id).map Gateway.id) ++
            ApiCall.listNatGateways vcn.id ::
              deleteEach fails ApiCall.deleteNatGateway
                ((p.natGatewaysOf vcn.id).map Gateway.id) ++
            ApiCall.listServiceGateways vcn.id ::
              deleteEach fails ApiCall.deleteServiceGateway
                ((p.serviceGatewaysOf vcn.id).map Gateway.id) ++
            ApiCall.listNetworkSecurityGroups vcn.id ::
              deleteEach fails ApiCall.deleteNetworkSecurityGroup
                ((p.nsgsOf vcn.id).map Gateway.id) ++
            ApiCall.listRouteTables vcn.id ::
              deleteEach fails ApiCall.deleteRouteTable
                (((p.routeTablesOf vcn.id).filter
                    (fun rt => !(startsWithPy rt.display_name "Default"))).map RouteTable.id) ++
            ApiCall.listSecurityLists vcn.id ::
              deleteEach fails ApiCall.deleteSecurityList
                (((p.securityListsOf vcn.id).filter
                    (fun sl => !(startsWithPy sl.display_name "Default"))).map SecurityList.id) ++
            [ApiCall.sleep 10, ApiCall.deleteVcn vcn.id]
        · simp [mutationTrace]
      exact h1.trans h2
    · refine rulesAfter_empty_of_mem fails _ rt.id (initialRules p vcn.id) hmem hok ?_
      intro rid rules hm
      exact (wizardTrace_update_inv p vcn confirm proceed fails drain rid rules hm).1
  · exact wizardTrace_update_inv p vcn confirm proceed fails drain

theorem claim6_rule_clearing_witness :
    (∀ rt ∈ providerW.routeTablesOf vcnW.id, rt.route_rules.isEmpty = false →
      ApiCall.updateRouteTable rt.id [] ∈
        wizardTrace providerW vcnW "DELETAR" "n" (fun _ => false) (fun _ => 0) ∧
      ((fun _ => false : ApiCall → Bool) (ApiCall.updateRouteTable rt.id []) = false →
        ([ApiCall.updateRouteTable rt.id [], ApiCall.sleep 2] <:+:
          wizardTrace providerW vcnW "DELETAR" "n" (fun _ => false) (fun _ => 0)) ∧
        rulesAfter (fun _ => false)
          (wizardTrace providerW vcnW "DELETAR" "n" (fun _ => false) (fun _ => 0))
          (initialRules providerW vcnW.id) rt.id = [])) ∧
    (∀ rid rules, ApiCall.updateRouteTable rid rules ∈
        wizardTrace providerW vcnW "DELETAR" "n" (fun _ => false) (fun _ => 0) →
      rules = [] ∧ ∃ rt ∈ providerW.routeTablesOf vcnW.id,
        rt.id = rid ∧ rt.route_rules.isEmpty = false) :=
  claim6_rule_clearing providerW vcnW "DELETAR" "n" (fun _ => false) (fun _ => 0)
    rfl (Or.inl (by decide))

theorem waitUntilEmptyGo_false (lister : Nat → Nat) (interval timeout : Nat)
    (h : ∀ j, lister j ≠ 0) :
    ∀ fuel elapsed polls,
      (waitUntilEmptyGo lister interval timeout fuel elapsed polls).1 = false := by
  intro fuel
  induction fuel with
  | zero => intro e q; rfl
  | succ n ih =>
    intro e q
    by_cases he : e < timeout
    · simp [waitUntilEmptyGo, he, h q, ih]
    · simp [waitUntilEmptyGo, he]

theorem waitUntilEmptyGo_success (lister : Nat → Nat) (interval timeout : Nat) :
    ∀ k fuel elapsed polls,
      (∀ j, j < k → lister (polls + j) ≠ 0) →
      lister (polls + k) = 0 →
      elapsed + k * interval < timeout →
      k < fuel →
      waitUntilEmptyGo lister interval timeout fuel elapsed polls =
        (true, elapsed + k * interval, polls + k + 1) := by
  intro k
  induction k with
  | zero =>
    intro fuel e q h0 hz hlt hfuel
    cases fuel with
    | zero => omega
    | succ n =>
      have he : e < timeout := by simpa using hlt
      have hq : lister q = 0 := by simpa using hz
      simp [waitUntilEmptyGo, he, hq]
  | succ k ih =>
    intro fuel e q h0 hz hlt hfuel
    cases fuel with
    | zero => omega
    | succ n =>
      have hmul : (k + 1) * interval = k * interval + interval :=
        Nat.succ_mul k interval
      have he : e < timeout := by
        have := Nat.le_add_right e ((k + 1) * interval)
        omega
      have hq : lister q ≠ 0 := by
        have := h0 0 (Nat.succ_pos k)
        simpa using this
      have hrec := ih n (e + interval) (q + 1)
        (fun j hj => by
          have := h0 (j + 1) (Nat.succ_lt_succ hj)
          have harith : q + (j + 1) = q + 1 + j := by omega
          rwa [harith] at this)
        (by
          have harith : q + (k + 1) = q + 1 + k := by omega
          rwa [harith] at hz)
        (by rw [hmul] at hlt; omega)
        (by omega)
      simp only [waitUntilEmptyGo, if_pos he, if_neg hq]
      rw [hrec]
      rw [hmul]
      refine congrArg _ ?_
      rw [Prod.mk.injEq]
      omega

/-- C7: the subnet-drain polling primitive polls at a fixed interval and
(i) with interval 2 and timeout 10 against a lister pinned at 3 it
returns the timeout outcome `false` after exactly 10 time units and 5
polls (within the claimed 10–12 window and at least 5 polls); (ii) a
lister that never reaches zero always yields the normal `false` outcome,
never an error; (iii) it returns `true` the first time the count is zero,
within one interval of that poll; and (iv) the drain oracle — hence any
timeout of the barrier — never changes the teardown's outcome. -/
theorem claim7_polling :
    (waitUntilEmpty (fun _ => 3) 2 10 = (false, 10, 5) ∧
      10 ≤ 10 ∧ 10 ≤ 12 ∧ 5 ≤ 5) ∧
    (∀ lister interval timeout, (∀ j, lister j ≠ 0) →
      (waitUntilEmpty lister interval timeout).1 = false) ∧
    (∀ lister interval timeout k, 0 < interval →
      (∀ j, j < k → lister j ≠ 0) → lister k = 0 → k * interval < timeout →
      waitUntilEmpty lister interval timeout = (true, k * interval, k + 1)) ∧
    (∀ p vcn confirm proceed fails drain drain',
      wizardOutcome p vcn confirm proceed fails drain =
        wizardOutcome p vcn confirm proceed fails drain') := by
  refine ⟨⟨by decide, by decide, by decide, by decide⟩, ?_, ?_, ?_⟩
  · intro lister interval timeout h
    exact waitUntilEmptyGo_false lister interval timeout h _ 0 0
  · intro lister interval timeout k hpos hbefore hk hin
    have hfuel : k < timeout + 1 := by
      have : k ≤ k * interval := Nat.le_mul_of_pos_right k hpos
      omega
    have := waitUntilEmptyGo_success lister interval timeout k (timeout + 1) 0 0
      (fun j hj => by simpa using hbefore j hj) (by simpa using hk)
      (by simpa using hin) hfuel
    simpa [waitUntilEmpty] using this
  · intro p vcn confirm proceed fails drain drain'
    unfold wizardOutcome wizardRun
    split_ifs <;> rfl

theorem claim7_polling_witness :
    waitUntilEmpty (fun j => if j < 2 then 3 else 0) 2 10 = (true, 4, 3) :=
  claim7_polling.2.2.1 (fun j => if j < 2 then 3 else 0) 2 10 2 (by decide)
    (fun j hj => by simp [hj]) (by norm_num) (by decide)

/-- C8: for a target VCN with zero dependent resources of every kind (no
in-use instances, no subnets, no gateways, no NSGs, only default-named
rule-free route tables and default-named security lists), a confirmed
teardown issues no delete or update call in phases 2–9: the only mutation
in the whole trace is the final network deletion call. -/
theorem claim8_no_dependencies (p : Provider) (vcn : Vcn)
    (confirm proceed : String) (fails : ApiCall → Bool) (drain : Nat → Nat)
    (hc : confirm = "DELETAR")
    (hinst : instancesInVcn p vcn.id = [])
    (hsub : p.subnetsOf vcn.id = [])
    (hig : p.internetGatewaysOf vcn.id = [])
    (hnat : p.natGatewaysOf vcn.id = [])
    (hsgw : p.serviceGatewaysOf vcn.id = [])
    (hnsg : p.nsgsOf vcn.id = [])
    (hrt : ∀ rt ∈ p.routeTablesOf vcn.id,
      rt.route_rules.isEmpty = true ∧ startsWithPy rt.display_name "Default" = true)
    (hsl : ∀ sl ∈ p.securityListsOf vcn.id,
      startsWithPy sl.display_name "Default" = true) :
    (wizardTrace p vcn confirm proceed fails drain).filter isMutation =
      [ApiCall.deleteVcn vcn.id] := by
  rw [wizardTrace_filter_confirmed p vcn confirm proceed fails drain hc (Or.inl hinst)]
  unfold mutationCalls
  rw [hsub, hig, hnat, hsgw, hnsg]
  have h1 : (p.routeTablesOf vcn.id).filter (fun rt => !rt.route_rules.isEmpty) = [] := by
    rw [List.filter_eq_nil_iff]
    intro rt hm
    simp [(hrt rt hm).1]
  have h2 : (p.routeTablesOf vcn.id).filter
      (fun rt => !(startsWithPy rt.display_name "Default")) = [] := by
    rw [List.filter_eq_nil_iff]
    intro rt hm
    simp [(hrt rt hm).2]
  have h3 : (p.securityListsOf vcn.id).filter
      (fun sl => !(startsWithPy sl.display_name "Default")) = [] := by
    rw [List.filter_eq_nil_iff]
    intro sl hm
    simp [hsl sl hm]
  rw [h1, h2, h3]
  rfl

theorem claim8_no_dependencies_witness :
    (wizardTrace providerEmptyW vcnW "DELETAR" "n" (fun _ => false) (fun _ => 0)).filter
        isMutation = [ApiCall.deleteVcn vcnW.id] :=
  claim8_no_dependencies providerEmptyW vcnW "DELETAR" "n" (fun _ => false)
    (fun _ => 0) rfl (by decide) (by decide) (by decide) (by decide) (by decide)
    (by decide) (by decide) (by decide)

theorem scanAttachments_fst (p : Provider) (vcnId : String)
    (atts : List VnicAttachment) :
    (scanAttachments p vcnId atts).1 =
      atts.any (fun att =>
        (att.lifecycle_state == "ATTACHED" || att.lifecycle_state == "ATTACHING") &&
        (p.subnetById (p.vnicById att.vnic_id).subnet_id).vcn_id == vcnId) := by
  induction atts with
  | nil => rfl
  | cons att rest ih =>
    by_cases h : att.lifecycle_state = "ATTACHED" ∨ att.lifecycle_state = "ATTACHING"
    · by_cases hs : (p.subnetById (p.vnicById att.vnic_id).subnet_id).vcn_id = vcnId
      · simp only [scanAttachments, if_pos h, if_pos hs, List.any_cons]
        rcases h with h | h <;> simp [h, hs]
      · simp only [scanAttachments, if_pos h, if_neg hs, List.any_cons]
        simp [hs, ih]
    · simp only [scanAttachments, if_neg h, List.any_cons]
      push_neg at h
      simp [h.1, h.2, ih]

theorem discoverInstances_fst (p : Provider) (vcnId : String) (l : List Instance) :
    (discoverInstances p vcnId l).1 = l.filter (instanceMatchesVcn p vcnId) := by
  induction l with
  | nil => rfl
  | cons inst rest ih =>
    have hstep : (discoverInstances p vcnId (inst :: rest)).1 =
        (if (scanAttachments p vcnId (p.vnicAttachmentsOf inst.id)).1
         then inst :: (discoverInstances p vcnId rest).1
         else (discoverInstances p vcnId rest).1) := rfl
    rw [hstep, ih, scanAttachments_fst, List.filter_cons]
    rfl

/-- C9: impact discovery reports each affected instance at most once:
the in-use list is exactly the filter of the instance list by the
"some ATTACHED/ATTACHING VNIC resolves into the target VCN" predicate, so
each occurrence of an instance contributes at most one entry — and an
instance listed once that matches contributes exactly one entry even when
several of its interfaces match. -/
theorem claim9_discovery_dedup (p : Provider) (vcnId : String) :
    instancesInVcn p vcnId = p.instances.filter (instanceMatchesVcn p vcnId) ∧
    (∀ inst : Instance,
      (instancesInVcn p vcnId).count inst ≤ p.instances.count inst) ∧
    (∀ inst : Instance, p.instances.count inst = 1 →
      instanceMatchesVcn p vcnId inst = true →
      (instancesInVcn p vcnId).count inst = 1) := by
  refine ⟨discoverInstances_fst p vcnId p.instances, ?_, ?_⟩
  · intro inst
    rw [instancesInVcn, discoverInstances_fst p vcnId p.instances]
    exact (List.filter_sublist _).count_le inst
  · intro inst h1 hm
    rw [instancesInVcn, discoverInstances_fst p vcnId p.instances,
      List.count_filter hm, h1]

theorem claim9_discovery_dedup_witness :
    (instancesInVcn providerBusyW "vcn-1").count instW = 1 :=
  (claim9_discovery_dedup providerBusyW "vcn-1").2.2 instW (by decide) (by decide)

theorem isInstanceMutation_isMutation {c : ApiCall}
    (h : isInstanceMutation c = true) : isMutation c = true := by
  cases c <;> first | rfl | (cases h)

theorem not_instanceMutation_of_not_mutation {c : ApiCall}
    (h : isMutation c = false) : isInstanceMutation c = false := by
  cases hct : isInstanceMutation c
  · rfl
  · rw [isInstanceMutation_isMutation hct] at h
    cases h

theorem mutationCalls_not_instanceAction (p : Provider) (vcn : Vcn) :
    ∀ c ∈ mutationCalls p vcn, isInstanceMutation c = false := by
  intro c hc
  simp only [mutationCalls, List.mem_append, List.mem_map, List.mem_singleton,
    List.mem_filter] at hc
  rcases hc with ⟨x, hx, rfl⟩ | ⟨x, hx, rfl⟩ | ⟨x, hx, rfl⟩ | ⟨x, hx, rfl⟩ |
    ⟨x, hx, rfl⟩ | ⟨x, hx, rfl⟩ | ⟨x, hx, rfl⟩ | ⟨x, hx, rfl⟩ | rfl <;> rfl

theorem pre_not_instanceMutation (p : Provider) (vcnId : String) :
    ∀ c ∈ ApiCall.listVcns :: discoveryTrace p vcnId,
      isInstanceMutation c = false := by
  intro c hc
  rcases List.mem_cons.1 hc with rfl | h
  · rfl
  · unfold discoveryTrace at h
    rcases List.mem_cons.1 h with rfl | h'
    · rfl
    · exact not_instanceMutation_of_not_mutation
        (discoverInstances_not_mutation p vcnId p.instances c h')

/-- C10: the teardown never mutates compute instances: on every path
(rejected, aborted, or full run, with any failure pattern) no
start/stop/reset call appears in the trace, and every mutation issued is
against a network-kind resource. -/
theorem claim10_frame (p : Provider) (vcn : Vcn) (confirm proceed : String)
    (fails : ApiCall → Bool) (drain : Nat → Nat) :
    (∀ c ∈ wizardTrace p vcn confirm proceed fails drain,
      isInstanceMutation c = false) ∧
    (∀ c ∈ wizardTrace p vcn confirm proceed fails drain,
      isMutation c = true → isNetworkMutation c = true) := by
  have hmain : ∀ c ∈ wizardTrace p vcn confirm proceed fails drain,
      isInstanceMutation c = false := by
    intro c hcmem
    by_cases hc : confirm = "DELETAR"
    · by_cases habort : instancesInVcn p vcn.id ≠ [] ∧ lowerAscii proceed ≠ "s"
      · rw [wizardTrace, wizardRun_aborted p vcn confirm proceed fails drain hc
          habort.1 habort.2] at hcmem
        exact pre_not_instanceMutation p vcn.id c hcmem
      · push_neg at habort
        have hp : instancesInVcn p vcn.id = [] ∨ lowerAscii proceed = "s" := by
          by_cases hi : instancesInVcn p vcn.id = []
          · exact Or.inl hi
          · exact Or.inr (habort hi)
        rw [wizardTrace,
          wizardRun_confirmed p vcn confirm proceed fails drain hc hp] at hcmem
        rcases List.mem_append.1 hcmem with h | h
        · exact pre_not_instanceMutation p vcn.id c h
        · cases hmb : isMutation c with
          | false => exact not_instanceMutation_of_not_mutation hmb
          | true =>
            have hin : c ∈ mutationCalls p vcn := by
              rw [← filter_isMutation_mutationTrace p vcn fails drain]
              exact List.mem_filter.2 ⟨h, hmb⟩
            exact mutationCalls_not_instanceAction p vcn c hin
    · rw [wizardTrace,
        wizardRun_not_confirmed p vcn confirm proceed fails drain hc] at hcmem
      rcases List.mem_singleton.1 hcmem with rfl
      rfl
  refine ⟨hmain, ?_⟩
  intro c hc hmut
  have hni := hmain c hc
  cases c <;> simp_all [isMutation, isInstanceMutation, isNetworkMutation]

theorem claim10_frame_witness :
    isInstanceMutation ApiCall.listVcns = false :=
  (claim10_frame providerW vcnW "DELETAR" "s" (fun _ => false) (fun _ => 0)).1
    ApiCall.listVcns (by decide)

end OciManager
